import Mathlib

/-!
Verification development for a rhythm-driven arcade game (MIDI-to-gameplay
pipeline and runtime loop). The JavaScript source is shallowly embedded:
JS numbers are modelled as rationals (`ℚ`), integer-valued quantities as
`ℕ`/`ℤ` with explicit JS remainder semantics (`Int.tmod`, which truncates
toward zero, matching the JS `%` operator) where signs can matter, and
fallible code paths return `Option`. Fields with JS `undefined`/falsy
handling are modelled with `Option` or with `0` as the falsy value,
mirroring each source expression.
-/

namespace GameTest

/-- JS `Math.round`: rounds half toward positive infinity. -/
def jsRound (q : ℚ) : ℤ := ⌊q + 1/2⌋

/-- JS `a || d` for an optional numeric field: falsy (absent or `0`) falls
through to the default. -/
def jsOrNat : Option ℕ → ℕ → ℕ
  | some n, d => if n = 0 then d else n
  | none, d => d

/-! ## Grid Model (`GridManager`, source `src/unnamed/part_003`) -/

/-- Constructor parameters of `GridManager` (`params` object). Absent
fields are `none`; `0` is falsy in the source `a || b` chains. -/
structure GridParams where
  gridRows : Option ℕ := none
  gridCols : Option ℕ := none
  gridSize : Option ℕ := none
  deriving Repr, DecidableEq

/-- State of a constructed `GridManager`; `lanes`/`columns` are the pixel
positions built by `buildPositions`. -/
structure GridManager where
  width : ℚ
  height : ℚ
  rows : ℕ
  cols : ℕ
  cellCount : ℕ
  lanes : List ℚ
  columns : List ℚ
  deriving Repr, DecidableEq

/-- Source `buildPositions(size, count)`: evenly spaced positions
`spacing * (i+1)` with `spacing = size / (count + 1)`. -/
def buildPositions (size : ℚ) (count : ℕ) : List ℚ :=
  (List.range count).map (fun i => (size / (count + 1)) * (i + 1))

/-- Source `GridManager` constructor: rows and cols are clamped to `[3,5]`
after the falsy-default chains `gridRows || gridSize || 3` and
`gridCols || gridSize || rows`. -/
def mkGridManager (width height : ℚ) (params : GridParams) : GridManager :=
  let rows := max 3 (min 5 (jsOrNat params.gridRows (jsOrNat params.gridSize 3)))
  let cols := max 3 (min 5 (jsOrNat params.gridCols (jsOrNat params.gridSize rows)))
  { width := width
    height := height
    rows := rows
    cols := cols
    cellCount := rows * cols
    lanes := buildPositions height rows
    columns := buildPositions width cols }

def GridManager.getRowCount (g : GridManager) : ℕ := g.rows

def GridManager.getColumnCount (g : GridManager) : ℕ := g.cols

def GridManager.getCellCount (g : GridManager) : ℕ := g.cellCount

/-- Source local `safeCells = totalCells > 0 ? totalCells : 1` inside
`getCellFromBeatIndex`. -/
def GridManager.safeCells (g : GridManager) : ℕ :=
  if g.getCellCount > 0 then g.getCellCount else 1

/-- Source `getCellFromBeatIndex(beatIndex, seedA, seedB)`. JS `%` is
truncated remainder (`Int.tmod`); `Math.floor(cellIndex / this.cols)` is
floor division (`Int.fdiv`) for the positive `cols` the constructor
guarantees. -/
def GridManager.getCellFromBeatIndex (g : GridManager) (beatIndex seedA seedB : ℤ) :
    ℤ × ℤ :=
  let cellIndex := Int.tmod (beatIndex * seedA + seedB) (g.safeCells : ℤ)
  let row := Int.fdiv cellIndex (g.cols : ℤ)
  let col := Int.tmod cellIndex (g.cols : ℤ)
  (row, col)

/-- Reference definition written from the spec text (§4.1): index
`(beatIndex*seedA + seedB) mod (rows*cols)`, row `index / cols`,
col `index mod cols`, in integer arithmetic. -/
def cellFromBeatIndexSpec (rows cols beatIndex seedA seedB : ℕ) : ℕ × ℕ :=
  let index := (beatIndex * seedA + seedB) % (rows * cols)
  (index / cols, index % cols)

/-- Rows of a constructed grid are clamped into `[3,5]`. -/
theorem mkGridManager_rows_bounds (width height : ℚ) (p : GridParams) :
    3 ≤ (mkGridManager width height p).rows ∧ (mkGridManager width height p).rows ≤ 5 := by
  unfold mkGridManager
  constructor <;> simp

/-- Columns of a constructed grid are clamped into `[3,5]`. -/
theorem mkGridManager_cols_bounds (width height : ℚ) (p : GridParams) :
    3 ≤ (mkGridManager width height p).cols ∧ (mkGridManager width height p).cols ≤ 5 := by
  unfold mkGridManager
  constructor <;> simp

theorem mkGridManager_cellCount (width height : ℚ) (p : GridParams) :
    (mkGridManager width height p).cellCount =
      (mkGridManager width height p).rows * (mkGridManager width height p).cols := rfl

theorem mkGridManager_cellCount_pos (width height : ℚ) (p : GridParams) :
    0 < (mkGridManager width height p).cellCount := by
  rw [mkGridManager_cellCount]
  exact Nat.mul_pos
    (lt_of_lt_of_le (by norm_num) (mkGridManager_rows_bounds width height p).1)
    (lt_of_lt_of_le (by norm_num) (mkGridManager_cols_bounds width height p).1)

/-- On a grid whose cell count is `rows * cols` and positive, the source
cell computation agrees with the spec reference definition on
non-negative inputs. -/
theorem getCellFromBeatIndex_eq_spec (g : GridManager)
    (hc : g.cellCount = g.rows * g.cols) (hpos : 0 < g.cellCount) (b a s : ℕ) :
    g.getCellFromBeatIndex b a s =
      (((cellFromBeatIndexSpec g.rows g.cols b a s).1 : ℤ),
       ((cellFromBeatIndexSpec g.rows g.cols b a s).2 : ℤ)) := by
  simp only [GridManager.getCellFromBeatIndex, GridManager.safeCells,
    GridManager.getCellCount, cellFromBeatIndexSpec]
  rw [if_pos hpos, hc]
  have e1 : ((b : ℤ) * a + s) = ((b * a + s : ℕ) : ℤ) := by push_cast; ring
  rw [e1, ← Int.ofNat_tmod, ← Int.ofNat_fdiv, ← Int.ofNat_tmod]

/-- C4: `getCellFromBeatIndex` is a deterministic pure function equal to the
reference definition `index = (beatIndex*seedA + seedB) mod (rows*cols)`,
`row = index div cols`, `col = index mod cols`, for every constructed grid
and non-negative inputs; in particular with rows = cols = 3, seedA = 7,
seedB = 3, beatIndex = 0 it returns index 3, i.e. (row = 1, col = 0). -/
theorem getCellFromBeatIndex_matches_reference :
    (∀ (width height : ℚ) (p : GridParams) (b a s : ℕ),
      (mkGridManager width height p).getCellFromBeatIndex b a s =
        (((cellFromBeatIndexSpec (mkGridManager width height p).rows
            (mkGridManager width height p).cols b a s).1 : ℤ),
         ((cellFromBeatIndexSpec (mkGridManager width height p).rows
            (mkGridManager width height p).cols b a s).2 : ℤ))) ∧
    (mkGridManager 300 300 {}).getCellFromBeatIndex 0 7 3 = (1, 0) ∧
    cellFromBeatIndexSpec 3 3 0 7 3 = (1, 0) := by
  refine ⟨fun width height p b a s => ?_, by decide, by decide⟩
  exact getCellFromBeatIndex_eq_spec _ (mkGridManager_cellCount width height p)
    (mkGridManager_cellCount_pos width height p) b a s

/-- C10: for every constructed grid and non-negative beatIndex, seedA, seedB,
`getCellFromBeatIndex` returns an on-grid cell (`0 ≤ row ≤ rows-1`,
`0 ≤ col ≤ cols-1`); the modulus divisor `safeCells` is at least 1, and the
constructor clamps rows and cols to `[3,5]`. -/
theorem getCellFromBeatIndex_on_grid (width height : ℚ) (p : GridParams) (b a s : ℕ) :
    3 ≤ (mkGridManager width height p).rows ∧ (mkGridManager width height p).rows ≤ 5 ∧
    3 ≤ (mkGridManager width height p).cols ∧ (mkGridManager width height p).cols ≤ 5 ∧
    1 ≤ (mkGridManager width height p).safeCells ∧
    0 ≤ ((mkGridManager width height p).getCellFromBeatIndex b a s).1 ∧
    ((mkGridManager width height p).getCellFromBeatIndex b a s).1 ≤
      ((mkGridManager width height p).rows : ℤ) - 1 ∧
    0 ≤ ((mkGridManager width height p).getCellFromBeatIndex b a s).2 ∧
    ((mkGridManager width height p).getCellFromBeatIndex b a s).2 ≤
      ((mkGridManager width height p).cols : ℤ) - 1 := by
  obtain ⟨hr3, hr5⟩ := mkGridManager_rows_bounds width height p
  obtain ⟨hc3, hc5⟩ := mkGridManager_cols_bounds width height p
  have hcols : 0 < (mkGridManager width height p).cols := by omega
  have hrows : 0 < (mkGridManager width height p).rows := by omega
  have hsafe : 1 ≤ (mkGridManager width height p).safeCells := by
    unfold GridManager.safeCells
    rw [if_pos]
    · exact mkGridManager_cellCount_pos width height p
    · exact mkGridManager_cellCount_pos width height p
  rw [getCellFromBeatIndex_eq_spec _ (mkGridManager_cellCount width height p)
    (mkGridManager_cellCount_pos width height p) b a s]
  simp only [cellFromBeatIndexSpec]
  have hidx : (b * a + s) % ((mkGridManager width height p).rows *
      (mkGridManager width height p).cols) <
      (mkGridManager width height p).rows * (mkGridManager width height p).cols :=
    Nat.mod_lt _ (Nat.mul_pos hrows hcols)
  have hrow : (b * a + s) % ((mkGridManager width height p).rows *
      (mkGridManager width height p).cols) / (mkGridManager width height p).cols <
      (mkGridManager width height p).rows :=
    Nat.div_lt_of_lt_mul (by
      rw [Nat.mul_comm (mkGridManager width height p).cols (mkGridManager width height p).rows]
      exact hidx)
  have hcol : (b * a + s) % ((mkGridManager width height p).rows *
      (mkGridManager width height p).cols) % (mkGridManager width height p).cols <
      (mkGridManager width height p).cols :=
    Nat.mod_lt _ hcols
  refine ⟨hr3, hr5, hc3, hc5, hsafe, by positivity, ?_, by positivity, ?_⟩ <;> omega

/-! ## Event Builder (`buildMIDIEvents`, source `src/unnamed/part_006`) -/

/-- JS number restricted to the values the rate-cap code can meet: a finite
rational or positive infinity (`maxEventsPerSec` may be `Infinity`). -/
inductive JNum where
  | num (q : ℚ)
  | inf
  deriving Repr, DecidableEq

/-- JS comparison `x > 0` on a `JNum` (`Infinity > 0` is true). -/
def JNum.isPos : JNum → Bool
  | JNum.num q => decide (q > 0)
  | JNum.inf => true

/-- JS `1 / x` on a `JNum`, as used for `minInterval = 1/maxEventsPerSec`
(`1/Infinity = 0`). Only consulted when `isPos` holds, so the finite
argument is positive. -/
def JNum.oneOver : JNum → ℚ
  | JNum.num q => 1 / q
  | JNum.inf => 0

/-- Parsed note: `{ time, midi, velocity }` as consumed by the processor. -/
structure SCNote where
  time : ℚ
  midi : ℤ
  velocity : ℚ
  deriving Repr, DecidableEq

/-- Parsed track: `{ notes }`. -/
structure SCTrack where
  notes : List SCNote
  deriving Repr, DecidableEq

/-- Tempo event: `{ bpm }`. -/
structure SCTempo where
  bpm : ℚ
  deriving Repr, DecidableEq

/-- Parsed score shape: `{ tracks, header: { tempos }, duration? }`. -/
structure MidiData where
  tracks : List SCTrack
  tempos : List SCTempo
  duration : Option ℚ
  deriving Repr, DecidableEq

/-- Stage configuration fields read by the processor. `gridRows = 0` plays
the role of a falsy (absent or zero) JS field in `config.gridRows || 3`;
`density = none` is JS `undefined`. -/
structure MPConfig where
  trackIndex : ℤ
  bpmOverride : ℚ
  quantizeDiv : ℚ
  velocityMin : ℚ
  density : Option ℚ
  maxEventsPerSec : JNum
  gridRows : ℕ
  lowCut : ℚ
  highCut : ℚ
  deriving Repr, DecidableEq

/-- Game event produced from one note. -/
structure MEvent where
  timeSec : ℚ
  laneRow : ℤ
  hazardType : ℕ
  pitch : ℤ
  velocity : ℚ
  deriving Repr, DecidableEq

/-- Result object of `buildMIDIEvents`; the early return for missing score
data carries no `midi` field, modelled as `none`. -/
structure TrackResult where
  midi : Option MidiData
  events : List MEvent
  nextIndex : ℕ
  bpm : ℚ
  secondsPerBeat : ℚ
  songDuration : ℚ
  deriving Repr, DecidableEq

/-- Source `mapPitchToLane(midiValue, config)`. -/
def mapPitchToLane (midiValue : ℤ) (config : MPConfig) : ℤ :=
  let rows := max 3 (min 5 (jsOrNat (some config.gridRows) 3))
  let minPitch := min config.lowCut config.highCut
  let maxPitch := max config.lowCut config.highCut
  let clamped := max minPitch (min maxPitch (midiValue : ℚ))
  let range := max 1 (maxPitch - minPitch)
  let normalized := (clamped - minPitch) / range
  let laneFromTop := min ((rows : ℤ) - 1) ⌊normalized * rows⌋
  ((rows : ℤ) - 1) - laneFromTop

/-- Track selection: all tracks when `trackIndex = -1`, else the single
index-clamped track. When the clamped index still misses (no tracks at
all), the JS source would dereference `undefined` and throw: `none`. -/
def selectTracks (md : MidiData) (config : MPConfig) : Option (List SCTrack) :=
  if config.trackIndex = -1 then some md.tracks
  else
    let ti : ℤ := max 0 (min config.trackIndex ((md.tracks.length : ℤ) - 1))
    match md.tracks.get? ti.toNat with
    | some t => some [t]
    | none => none

/-- Per-note processing inside the collection loop: velocity filter,
optional quantization, pitch-to-lane and velocity-to-hazard mapping. -/
def processNote (config : MPConfig) (secondsPerBeat : ℚ) (note : SCNote) : Option MEvent :=
  if note.velocity < config.velocityMin then none
  else
    let timeSec :=
      if config.quantizeDiv > 0 then
        let quantizeUnit := secondsPerBeat / config.quantizeDiv
        (jsRound (note.time / quantizeUnit) : ℚ) * quantizeUnit
      else note.time
    let hazardType : ℕ :=
      if note.velocity > 66/100 then 2
      else if note.velocity > 33/100 then 1
      else 0
    some { timeSec := timeSec
           laneRow := mapPitchToLane note.midi config
           hazardType := hazardType
           pitch := note.midi
           velocity := note.velocity }

/-- Ordering used by `events.sort((a, b) => a.timeSec - b.timeSec)`. -/
def eventLE (a b : MEvent) : Prop := a.timeSec ≤ b.timeSec

instance : DecidableRel eventLE := fun a b => inferInstanceAs (Decidable (a.timeSec ≤ b.timeSec))

instance : IsTotal MEvent eventLE := ⟨fun a b => le_total a.timeSec b.timeSec⟩

instance : IsTrans MEvent eventLE := ⟨fun _ _ _ hab hbc => le_trans hab hbc⟩

/-- Density-filter loop: event at position `i` is kept iff
`i % step == 0`, mirroring the indexed `for` loop of the source. -/
def densityLoop (step : ℕ) : ℕ → List MEvent → List MEvent
  | _, [] => []
  | i, e :: rest =>
    if i % step = 0 then e :: densityLoop step (i + 1) rest
    else densityLoop step (i + 1) rest

/-- Rate-cap loop: keep an event iff its gap since the last kept event is
at least `minInterval`, or no event was kept yet (`lastTime < 0`). -/
def rateCapLoop (minInterval : ℚ) : List MEvent → ℚ → List MEvent
  | [], _ => []
  | e :: rest, lastTime =>
    if e.timeSec - lastTime ≥ minInterval ∨ lastTime < 0 then
      e :: rateCapLoop minInterval rest e.timeSec
    else rateCapLoop minInterval rest lastTime

/-- Source `buildMIDIEvents(midiData, config)`. Missing (`falsy`) score
data takes the early return; a selection failure (JS would throw a
`TypeError` iterating `undefined`) yields `none`. -/
def buildMIDIEvents (midiData : Option MidiData) (config : MPConfig) : Option TrackResult :=
  match midiData with
  | none => some { midi := none, events := [], nextIndex := 0, bpm := 120,
                   secondsPerBeat := 1/2, songDuration := 0 }
  | some md =>
    match selectTracks md config with
    | none => none
    | some tracks =>
      let bpm0 : ℚ := if config.bpmOverride > 0 then config.bpmOverride else 120
      let bpm : ℚ :=
        match md.tempos with
        | [] => bpm0
        | t :: _ => if config.bpmOverride = 0 then t.bpm else bpm0
      let secondsPerBeat := 60 / bpm
      let collected := tracks.flatMap (fun tr => tr.notes.filterMap (processNote config secondsPerBeat))
      let sortedEvents := List.insertionSort eventLE collected
      let afterDensity :=
        match config.density with
        | some d => if d < 1 ∧ d > 0 then densityLoop (jsRound (1 / d)).toNat 0 sortedEvents
                    else sortedEvents
        | none => sortedEvents
      let afterCap :=
        if config.maxEventsPerSec.isPos then
          rateCapLoop config.maxEventsPerSec.oneOver afterDensity (-1)
        else afterDensity
      let songDuration : ℚ :=
        match afterCap.getLast? with
        | some e => e.timeSec + 2
        | none =>
          match md.duration with
          | some d => d
          | none => 0
      some { midi := some md, events := afterCap, nextIndex := 0, bpm := bpm,
             secondsPerBeat := secondsPerBeat, songDuration := songDuration }

/-- Count, over the selected tracks, of the notes whose velocity passes the
velocity filter (`velocity ≥ velocityFloor`); stated from the spec text. -/
def velocityPassCount (md : MidiData) (config : MPConfig) : ℕ :=
  match selectTracks md config with
  | some tracks => (tracks.flatMap SCTrack.notes).countP (fun n => decide (config.velocityMin ≤ n.velocity))
  | none => 0

/-- Filtering and mapping the notes of one track keeps exactly the notes that
pass the velocity filter. -/
theorem length_filterMap_processNote (config : MPConfig) (spb : ℚ) (notes : List SCNote) :
    (notes.filterMap (processNote config spb)).length =
      notes.countP (fun n => decide (config.velocityMin ≤ n.velocity)) := by
  induction notes with
  | nil => rfl
  | cons n rest ih =>
    rw [List.filterMap_cons, List.countP_cons]
    by_cases h : n.velocity < config.velocityMin
    · have hp : processNote config spb n = none := by simp [processNote, h]
      rw [hp, ih]
      simp [not_le.mpr h]
    · have hp : ∃ e, processNote config spb n = some e := by
        simp only [processNote, if_neg h]
        exact ⟨_, rfl⟩
      obtain ⟨e, hp⟩ := hp
      rw [hp]
      simp [List.length_cons, ih, not_lt.mp h]

theorem length_collected (config : MPConfig) (spb : ℚ) (tracks : List SCTrack) :
    (tracks.flatMap (fun tr => tr.notes.filterMap (processNote config spb))).length =
      (tracks.flatMap SCTrack.notes).countP (fun n => decide (config.velocityMin ≤ n.velocity)) := by
  induction tracks with
  | nil => rfl
  | cons t rest ih =>
    rw [List.flatMap_cons, List.flatMap_cons, List.length_append, List.countP_append,
      length_filterMap_processNote, ih]

/-- With a zero minimum interval, the rate-cap loop keeps every event of a
time-sorted list (the sentinel `lastTime = -1` passes the first event). -/
theorem rateCapLoop_zero_sorted (l : List MEvent) (hs : List.Sorted eventLE l) :
    ∀ lastTime : ℚ, (lastTime < 0 ∨ ∀ e ∈ l, lastTime ≤ e.timeSec) →
      rateCapLoop 0 l lastTime = l := by
  induction l with
  | nil => intro lastTime _; rfl
  | cons e rest ih =>
    intro lastTime hlast
    obtain ⟨hhead, hrest⟩ := List.sorted_cons.mp hs
    have hcond : e.timeSec - lastTime ≥ 0 ∨ lastTime < 0 := by
      rcases hlast with h | h
      · exact Or.inr h
      · exact Or.inl (by linarith [h e (List.mem_cons_self e rest)])
    rw [rateCapLoop, if_pos hcond, ih hrest e.timeSec (Or.inr (fun x hx => hhead x hx))]

/-- C5: for every RunConfig, missing or empty (falsy) score data makes the
Event Builder return exactly events = [], bpm = 120, secondsPerBeat = 0.5,
songDuration = 0, without throwing. -/
theorem buildMIDIEvents_empty_score (config : MPConfig) :
    buildMIDIEvents none config =
      some { midi := none, events := [], nextIndex := 0, bpm := 120,
             secondsPerBeat := 1/2, songDuration := 0 } := rfl

/-- C2: with density = 1.0 and an unbounded events-per-second cap, the Event
Builder returns (without throwing, given the track selection succeeds) a
list whose length is the number of notes of the selected tracks passing
the velocity filter. -/
theorem buildMIDIEvents_length_density_one (md : MidiData) (config : MPConfig)
    (tracks : List SCTrack) (htr : selectTracks md config = some tracks)
    (hd : config.density = some 1) (hm : config.maxEventsPerSec = JNum.inf) :
    ∃ r, buildMIDIEvents (some md) config = some r ∧
      r.events.length = velocityPassCount md config := by
  simp only [buildMIDIEvents, htr, hd, hm]
  refine ⟨_, rfl, ?_⟩
  simp only [velocityPassCount, htr]
  have hdensity : ¬((1 : ℚ) < 1 ∧ (1 : ℚ) > 0) := by norm_num
  rw [if_neg hdensity]
  have hpos : JNum.isPos JNum.inf = true := rfl
  rw [if_pos hpos]
  show (rateCapLoop (JNum.oneOver JNum.inf) (List.insertionSort eventLE _) (-1)).length = _
  have hzero : JNum.oneOver JNum.inf = 0 := rfl
  rw [hzero, rateCapLoop_zero_sorted _ (List.sorted_insertionSort eventLE _) (-1)
    (Or.inl (by norm_num)), List.length_insertionSort, length_collected]

/-- Ten sample events at times 0, 1, ..., 9. -/
def sampleEvt (i : ℕ) : MEvent :=
  { timeSec := i, laneRow := 0, hazardType := 0, pitch := 0, velocity := 0 }

def sampleTen : List MEvent := (List.range 10).map sampleEvt

/-- The density loop keeps exactly the entries whose position (counting
from `n`) is a multiple of `step`. -/
theorem densityLoop_eq_filter_enumFrom (step : ℕ) (l : List MEvent) :
    ∀ n : ℕ, densityLoop step n l =
      ((List.enumFrom n l).filter (fun p => decide (p.1 % step = 0))).map Prod.snd := by
  induction l with
  | nil => intro n; rfl
  | cons e rest ih =>
    intro n
    rw [densityLoop, List.enumFrom, List.filter]
    by_cases h : n % step = 0 <;> simp [h, ih]

/-- C8: for 0 < density < 1, the density thinning of the Event Builder (the
branch guarded by `density < 1 && density > 0`) keeps the sorted event at
index i iff `i mod round(1/density) = 0`, where the step uses JS
`Math.round` (round half up, not floor); with density = 1/2 on 10 ordered
events it keeps exactly positions 0, 2, 4, 6, 8. -/
theorem densityThinning_keeps_multiples (d : ℚ) (h0 : 0 < d) (h1 : d < 1)
    (events : List MEvent) :
    (if d < 1 ∧ d > 0 then densityLoop (jsRound (1 / d)).toNat 0 events else events) =
      ((events.enum.filter
        (fun p => decide (p.1 % (jsRound (1 / d)).toNat = 0))).map Prod.snd) ∧
    (jsRound (1 / (1/2 : ℚ))).toNat = 2 ∧
    densityLoop (jsRound (1 / (1/2 : ℚ))).toNat 0 sampleTen =
      [sampleEvt 0, sampleEvt 2, sampleEvt 4, sampleEvt 6, sampleEvt 8] := by
  have hstep : (jsRound (1 / (1/2 : ℚ))).toNat = 2 := by
    norm_num [jsRound]
    rfl
  refine ⟨?_, hstep, ?_⟩
  · rw [if_pos ⟨h1, h0⟩, densityLoop_eq_filter_enumFrom]
    rfl
  · rw [hstep]
    rfl

/-- Concrete parsed score used by witnesses: two tracks, three notes, one
of which (velocity 1/5) fails a velocity floor of 3/10. -/
def sampleMidi : MidiData :=
  { tracks := [{ notes := [{ time := 0, midi := 60, velocity := 1/2 },
                           { time := 1, midi := 64, velocity := 1/5 }] },
               { notes := [{ time := 1/2, midi := 62, velocity := 9/10 }] }],
    tempos := [{ bpm := 100 }],
    duration := some 10 }

/-- Concrete configuration with density 1 and an unbounded rate cap. -/
def sampleBuildConfig : MPConfig :=
  { trackIndex := -1, bpmOverride := 0, quantizeDiv := 0, velocityMin := 3/10,
    density := some 1, maxEventsPerSec := JNum.inf, gridRows := 0,
    lowCut := 40, highCut := 80 }

theorem buildMIDIEvents_length_density_one_witness :
    ∃ r, buildMIDIEvents (some sampleMidi) sampleBuildConfig = some r ∧
      r.events.length = velocityPassCount sampleMidi sampleBuildConfig :=
  buildMIDIEvents_length_density_one sampleMidi sampleBuildConfig
    sampleMidi.tracks rfl rfl rfl

theorem densityThinning_keeps_multiples_witness :
    (if (1/2 : ℚ) < 1 ∧ (1/2 : ℚ) > 0 then
        densityLoop (jsRound (1 / (1/2 : ℚ))).toNat 0 sampleTen else sampleTen) =
      ((sampleTen.enum.filter
        (fun p => decide (p.1 % (jsRound (1 / (1/2 : ℚ))).toNat = 0))).map Prod.snd) ∧
    (jsRound (1 / (1/2 : ℚ))).toNat = 2 ∧
    densityLoop (jsRound (1 / (1/2 : ℚ))).toNat 0 sampleTen =
      [sampleEvt 0, sampleEvt 2, sampleEvt 4, sampleEvt 6, sampleEvt 8] :=
  densityThinning_keeps_multiples (1/2) (by norm_num) (by norm_num) sampleTen

/-! ## Playback Clock (`startGame` lines 299-313 and `getTrackTimeSec`,
source `src/unnamed/part_005`) -/

/-- Source lines 301-313 of `startGame`: the captured track start time.
When the audio engine reported a scheduled start instant (`audioStartTime`
not null) and the Tone global is present, the base is
`perfNow + (audioStartTime - toneNow) * 1000`; otherwise it falls back to
`performance.now()` alone. -/
def computeTrackStartMs (audioStartTime : Option ℚ) (toneAvailable : Bool)
    (toneNow perfNow : ℚ) : ℚ :=
  match audioStartTime, toneAvailable with
  | some t, true => perfNow + (t - toneNow) * 1000
  | _, _ => perfNow

/-- Source `getTrackTimeSec()`: returns 0 while `trackStartMs` is unset
(JS falsy check, so a base of exactly 0 also short-circuits), else
`(performance.now() - trackStartMs) / 1000`. -/
def getTrackTimeSec (trackStartMs : Option ℚ) (perfNow : ℚ) : ℚ :=
  match trackStartMs with
  | none => 0
  | some base => if base = 0 then 0 else (perfNow - base) / 1000

/-- C1: when audio reports a scheduled start instant, the clock base is
`wallClockNow + (audioStartInstant - audioEngineNow()) * 1000`; when audio
is disabled or failed (no start instant), the base is `wallClockNow`
alone; thereafter elapsed time reads `(wallClockNow() - base) / 1000` (for
any non-zero base, the JS falsy guard aside) and strictly advances with
the wall clock, so the gameplay timeline still runs. -/
theorem playbackClock_base_and_elapsed :
    (∀ audioStart toneNow perfNow : ℚ,
      computeTrackStartMs (some audioStart) true toneNow perfNow =
        perfNow + (audioStart - toneNow) * 1000) ∧
    (∀ (toneAvailable : Bool) (toneNow perfNow : ℚ),
      computeTrackStartMs none toneAvailable toneNow perfNow = perfNow) ∧
    (∀ base now : ℚ, base ≠ 0 →
      getTrackTimeSec (some base) now = (now - base) / 1000) ∧
    (∀ base now1 now2 : ℚ, base ≠ 0 → now1 < now2 →
      getTrackTimeSec (some base) now1 < getTrackTimeSec (some base) now2) := by
  refine ⟨fun audioStart toneNow perfNow => rfl,
    fun toneAvailable toneNow perfNow => by cases toneAvailable <;> rfl,
    fun base now hb => by simp [getTrackTimeSec, hb],
    fun base now1 now2 hb h12 => ?_⟩
  simp only [getTrackTimeSec, if_neg hb]
  have : (1000 : ℚ) > 0 := by norm_num
  exact div_lt_div_of_pos_right (by linarith) this

theorem playbackClock_base_and_elapsed_witness :
    computeTrackStartMs (some 7) true 2 100 = 100 + (7 - 2) * 1000 ∧
    computeTrackStartMs none true 2 100 = 100 ∧
    getTrackTimeSec (some 100) 1100 = (1100 - 100) / 1000 ∧
    getTrackTimeSec (some 100) 1100 < getTrackTimeSec (some 100) 2100 :=
  ⟨playbackClock_base_and_elapsed.1 7 2 100,
   playbackClock_base_and_elapsed.2.1 true 2 100,
   playbackClock_base_and_elapsed.2.2.1 100 1100 (by norm_num),
   playbackClock_base_and_elapsed.2.2.2 100 1100 2100 (by norm_num) (by norm_num)⟩

/-! ## Run Orchestrator completion (`update` lines 343-356 and
`handleSongComplete`, source `src/unnamed/part_005`) -/

/-- Completion-relevant scene state. `audioStopRequested`,
`victoryVisible`, `victoryScoreText` and `menuReturnDelayMs` record the
observable effects of `handleSongComplete` (stopping audio, showing the
summary, scheduling the 3000 ms return to menu). -/
structure SceneCompletion where
  width : ℚ
  isRunning : Bool
  isDead : Bool
  songCompleted : Bool
  songDuration : ℚ
  greenScore : ℕ
  progressFillWidth : ℚ
  audioStopRequested : Bool
  victoryVisible : Bool
  victoryScoreText : Option ℕ
  menuReturnDelayMs : Option ℚ
  deriving Repr, DecidableEq

/-- Source `handleSongComplete()`: bails out if already completed or dead;
otherwise marks the run completed and not running, stops audio, shows the
victory summary with the final score, and schedules the return to the
menu after 3000 ms. -/
def handleSongComplete (s : SceneCompletion) : SceneCompletion :=
  if s.songCompleted || s.isDead then s
  else
    { s with songCompleted := true
             isRunning := false
             audioStopRequested := true
             victoryVisible := true
             victoryScoreText := some s.greenScore
             menuReturnDelayMs := some (3000 : ℚ) }

/-- Source `update` lines 343-356: the progress-bar and song-completion
block. While running with positive duration, progress is
`min 1 (trackTime / songDuration)` and completion fires once when progress
reaches 1; when not running the progress bar resets. -/
def updateCompletion (trackTime : ℚ) (s : SceneCompletion) : SceneCompletion :=
  if s.isRunning ∧ s.songDuration > 0 then
    let progress := min 1 (trackTime / s.songDuration)
    let s1 := { s with progressFillWidth := (s.width - 40) * progress }
    if progress ≥ 1 ∧ ¬s1.songCompleted then handleSongComplete s1 else s1
  else if ¬s.isRunning then { s with progressFillWidth := 0 }
  else s

/-- C6: from a Running, not-Dead, not-yet-completed state with positive
song duration, the first frame with elapsed time at least the duration
transitions to Completed exactly once (audio stopped, summary shown with
the final score, menu return scheduled after 3000 ms); a later frame only
resets the progress bar and performs no second transition; and a frame
processed while Dead never changes `songCompleted`. -/
theorem update_completion_transition (s : SceneCompletion) (t : ℚ)
    (hr : s.isRunning = true) (hdur : s.songDuration > 0) (hnd : s.isDead = false)
    (hnc : s.songCompleted = false) (ht : t ≥ s.songDuration) :
    ((updateCompletion t s).songCompleted = true ∧
     (updateCompletion t s).isRunning = false ∧
     (updateCompletion t s).audioStopRequested = true ∧
     (updateCompletion t s).victoryVisible = true ∧
     (updateCompletion t s).victoryScoreText = some s.greenScore ∧
     (updateCompletion t s).menuReturnDelayMs = some (3000 : ℚ)) ∧
    (∀ t' : ℚ, updateCompletion t' (updateCompletion t s) =
      { updateCompletion t s with progressFillWidth := 0 }) ∧
    (∀ (s2 : SceneCompletion) (t2 : ℚ), s2.isDead = true →
      (updateCompletion t2 s2).songCompleted = s2.songCompleted) := by
  have hprog : min 1 (t / s.songDuration) ≥ 1 := by
    have : t / s.songDuration ≥ 1 := (le_div_iff₀ hdur).mpr (by linarith)
    simp [this]
  have hupd : updateCompletion t s =
      handleSongComplete { s with progressFillWidth := (s.width - 40) * min 1 (t / s.songDuration) } := by
    unfold updateCompletion
    rw [if_pos ⟨hr, hdur⟩, if_pos ⟨hprog, by simp [hnc]⟩]
  have hcompleted : updateCompletion t s =
      { s with progressFillWidth := (s.width - 40) * min 1 (t / s.songDuration)
               songCompleted := true
               isRunning := false
               audioStopRequested := true
               victoryVisible := true
               victoryScoreText := some s.greenScore
               menuReturnDelayMs := some (3000 : ℚ) } := by
    rw [hupd]
    unfold handleSongComplete
    rw [if_neg]
    simp [hnc, hnd]
  refine ⟨by rw [hcompleted]; exact ⟨rfl, rfl, rfl, rfl, rfl, rfl⟩, ?_, ?_⟩
  · intro t'
    rw [hcompleted]
    unfold updateCompletion
    rw [if_neg (by simp), if_pos (by simp)]
  · intro s2 t2 hdead
    unfold updateCompletion handleSongComplete
    by_cases h1 : s2.isRunning ∧ s2.songDuration > 0
    · rw [if_pos h1]
      by_cases h2 : min 1 (t2 / s2.songDuration) ≥ 1 ∧
          ¬({ s2 with progressFillWidth := (s2.width - 40) * min 1 (t2 / s2.songDuration) }).songCompleted
      · rw [if_pos h2, if_pos (by simp [hdead])]
      · rw [if_neg h2]
    · rw [if_neg h1]
      by_cases h3 : ¬s2.isRunning
      · rw [if_pos h3]
      · rw [if_neg h3]

/-- Concrete completion state used by the C6 witness. -/
def sampleScene : SceneCompletion :=
  { width := 800, isRunning := true, isDead := false, songCompleted := false,
    songDuration := 30, greenScore := 7, progressFillWidth := 100,
    audioStopRequested := false, victoryVisible := false,
    victoryScoreText := none, menuReturnDelayMs := none }

theorem update_completion_transition_witness :
    ((updateCompletion 30 sampleScene).songCompleted = true ∧
     (updateCompletion 30 sampleScene).isRunning = false ∧
     (updateCompletion 30 sampleScene).audioStopRequested = true ∧
     (updateCompletion 30 sampleScene).victoryVisible = true ∧
     (updateCompletion 30 sampleScene).victoryScoreText = some sampleScene.greenScore ∧
     (updateCompletion 30 sampleScene).menuReturnDelayMs = some (3000 : ℚ)) ∧
    (∀ t' : ℚ, updateCompletion t' (updateCompletion 30 sampleScene) =
      { updateCompletion 30 sampleScene with progressFillWidth := 0 }) ∧
    (∀ (s2 : SceneCompletion) (t2 : ℚ), s2.isDead = true →
      (updateCompletion t2 s2).songCompleted = s2.songCompleted) :=
  update_completion_transition sampleScene 30 rfl (by norm_num [sampleScene])
    rfl rfl (by norm_num [sampleScene])

/-! ## Hotspot Engine (`HotspotManager`, source `src/unnamed/part_004`) -/

/-- Grid cell occupied by a hotspot. -/
structure Cell where
  row : ℤ
  col : ℤ
  deriving Repr, DecidableEq

/-- Danger hotspot record: position plus whether its arming phase has
completed (`active` flips in the completion callback of the activation tween). -/
structure RedSpot where
  row : ℤ
  col : ℤ
  active : Bool
  deriving Repr, DecidableEq

/-- Mutable state of `HotspotManager` relevant to hotspot occupancy.
`greenActive` flips in the completion callback of the green activation tween. -/
structure HotspotState where
  greenHotspot : Option Cell
  greenActive : Bool
  redHotspots : List RedSpot
  lastBeatTime : ℤ
  lastSubdivTime : ℤ
  deriving Repr, DecidableEq

/-- Configuration fields `HotspotManager` reads. -/
structure HSConfig where
  greenEveryBeats : ℤ
  redEverySubdiv : ℤ
  seedA : ℤ
  seedB : ℤ
  deriving Repr, DecidableEq

/-- Constructor / `reset()` state: no hotspots, timing trackers at -1. -/
def initialHotspotState : HotspotState :=
  { greenHotspot := none, greenActive := false, redHotspots := [],
    lastBeatTime := -1, lastSubdivTime := -1 }

/-- Source `spawnGreenHotspotFromBeat(beatIndex)`: clears the green
hotspot, computes the cell for the beat, and if that cell hosts a danger
hotspot retries once with `beatIndex + 1` — the retried cell is used even
if it also hosts a danger hotspot. The new green hotspot starts unarmed. -/
def spawnGreenHotspotFromBeat (cfg : HSConfig) (g : GridManager) (beatIndex : ℤ)
    (s : HotspotState) : HotspotState :=
  let rc := g.getCellFromBeatIndex beatIndex cfg.seedA cfg.seedB
  let isRed := s.redHotspots.any (fun h => h.row == rc.1 && h.col == rc.2)
  let green : Cell :=
    if isRed then
      let nc := g.getCellFromBeatIndex (beatIndex + 1) cfg.seedA cfg.seedB
      { row := nc.1, col := nc.2 }
    else { row := rc.1, col := rc.2 }
  { s with greenHotspot := some green, greenActive := false }

/-- Source `spawnRedHotspotFromBeat(beatIndex)`: refuses beyond 3 danger
hotspots, skips (no retry) if the target cell hosts the safe hotspot or
an existing danger hotspot, else appends an unarmed danger hotspot. -/
def spawnRedHotspotFromBeat (cfg : HSConfig) (g : GridManager) (beatIndex : ℤ)
    (s : HotspotState) : HotspotState :=
  if s.redHotspots.length ≥ 3 then s
  else
    let rc := g.getCellFromBeatIndex beatIndex cfg.seedA cfg.seedB
    let isGreen :=
      match s.greenHotspot with
      | some gh => gh.row == rc.1 && gh.col == rc.2
      | none => false
    if isGreen then s
    else if s.redHotspots.any (fun h => h.row == rc.1 && h.col == rc.2) then s
    else { s with redHotspots := s.redHotspots ++ [{ row := rc.1, col := rc.2, active := false }] }

/-- Beat-dispatch core of `updateHotspotsFromBeats`, taking the two floor
results `currentBeat` and `subdiv` already computed. Green spawns on
qualifying new beats when no armed green exists; red spawns on qualifying
new subdivisions when fewer than 3 danger hotspots exist, and only then is
`lastSubdivTime` advanced; `lastBeatTime` is always advanced. -/
def updateHotspotsCore (cfg : HSConfig) (g : GridManager) (currentBeat subdiv : ℤ)
    (s : HotspotState) : HotspotState :=
  let s1 :=
    if Int.tmod currentBeat cfg.greenEveryBeats = 0 ∧ currentBeat ≠ s.lastBeatTime then
      (if s.greenHotspot = none ∨ s.greenActive = false then
        spawnGreenHotspotFromBeat cfg g currentBeat s
       else s)
    else s
  let s2 :=
    if Int.tmod subdiv cfg.redEverySubdiv = 1 ∧ subdiv ≠ s1.lastSubdivTime then
      (if s1.redHotspots.length < 3 then
        { spawnRedHotspotFromBeat cfg g subdiv s1 with lastSubdivTime := subdiv }
       else s1)
    else s1
  { s2 with lastBeatTime := currentBeat }

/-- Source `updateHotspotsFromBeats(trackTimeSec, trackBPM,
secondsPerBeat)`: falsy bpm or secondsPerBeat bail out; otherwise
`beatPosition = trackTimeSec / secondsPerBeat`, `currentBeat` its floor,
`subdiv = floor(beatPosition * redEverySubdiv)`. -/
def updateHotspotsFromBeats (cfg : HSConfig) (g : GridManager)
    (trackTimeSec trackBPM secondsPerBeat : ℚ) (s : HotspotState) : HotspotState :=
  if trackBPM = 0 ∨ secondsPerBeat = 0 then s
  else
    let beatTime := trackTimeSec / secondsPerBeat
    updateHotspotsCore cfg g ⌊beatTime⌋ ⌊beatTime * (cfg.redEverySubdiv : ℚ)⌋ s

/-- Green activation tween completion (`onComplete`): arms the green
hotspot; only fires while a green hotspot (and its tween) is alive. -/
def armGreen (s : HotspotState) : HotspotState :=
  if s.greenHotspot.isSome then { s with greenActive := true } else s

/-- Red activation tween completion for the i-th danger hotspot. -/
def armRed (i : ℕ) (s : HotspotState) : HotspotState :=
  match s.redHotspots.get? i with
  | some r => { s with redHotspots := s.redHotspots.set i { r with active := true } }
  | none => s

/-- Source `removeRedHotspot` via the 10-second `delayedCall` expiry of
the i-th danger hotspot. -/
def expireRed (i : ℕ) (s : HotspotState) : HotspotState :=
  { s with redHotspots := s.redHotspots.eraseIdx i }

/-- Source `checkGreenHotspot(playerLane, playerColumn)`: consumes an
armed, matching green hotspot. -/
def checkGreenHotspot (playerLane playerColumn : ℤ) (s : HotspotState) :
    HotspotState × Bool :=
  match s.greenHotspot with
  | some gh =>
    if s.greenActive ∧ gh.row = playerLane ∧ gh.col = playerColumn then
      ({ s with greenHotspot := none, greenActive := false }, true)
    else (s, false)
  | none => (s, false)

/-- Source `checkRedHotspots(playerLane, playerColumn)`: true when any
armed danger hotspot matches the player cell. -/
def checkRedHotspots (playerLane playerColumn : ℤ) (s : HotspotState) : Bool :=
  s.redHotspots.any (fun h => h.active && h.row == playerLane && h.col == playerColumn)

/-- States of the Hotspot Engine reachable from construction / `reset()`
through frame updates, tween-completion callbacks, expiry timers and
green-hotspot consumption. -/
inductive HotspotReach (cfg : HSConfig) (g : GridManager) : HotspotState → Prop where
  | init : HotspotReach cfg g initialHotspotState
  | update (s : HotspotState) (t bpm spb : ℚ) :
      HotspotReach cfg g s → HotspotReach cfg g (updateHotspotsFromBeats cfg g t bpm spb s)
  | greenArmed (s : HotspotState) :
      HotspotReach cfg g s → HotspotReach cfg g (armGreen s)
  | redArmed (s : HotspotState) (i : ℕ) :
      HotspotReach cfg g s → HotspotReach cfg g (armRed i s)
  | redExpired (s : HotspotState) (i : ℕ) :
      HotspotReach cfg g s → HotspotReach cfg g (expireRed i s)
  | greenChecked (s : HotspotState) (lane col : ℤ) :
      HotspotReach cfg g s → HotspotReach cfg g (checkGreenHotspot lane col s).1

theorem spawnGreen_redHotspots (cfg : HSConfig) (g : GridManager) (b : ℤ) (s : HotspotState) :
    (spawnGreenHotspotFromBeat cfg g b s).redHotspots = s.redHotspots := rfl

theorem spawnRed_length_le (cfg : HSConfig) (g : GridManager) (b : ℤ) (s : HotspotState) :
    (spawnRedHotspotFromBeat cfg g b s).redHotspots.length ≤ s.redHotspots.length + 1 := by
  unfold spawnRedHotspotFromBeat
  dsimp only
  split_ifs <;> simp

theorem updateHotspotsCore_reds_le (cfg : HSConfig) (g : GridManager) (cb sd : ℤ)
    (s : HotspotState) (h : s.redHotspots.length ≤ 3) :
    (updateHotspotsCore cfg g cb sd s).redHotspots.length ≤ 3 := by
  have key : ∀ x : HotspotState, x.redHotspots.length ≤ 3 →
      ((if Int.tmod sd cfg.redEverySubdiv = 1 ∧ sd ≠ x.lastSubdivTime then
          (if x.redHotspots.length < 3 then
            { spawnRedHotspotFromBeat cfg g sd x with lastSubdivTime := sd }
           else x)
        else x)).redHotspots.length ≤ 3 := by
    intro x hx
    split_ifs with h1 h2
    · have := spawnRed_length_le cfg g sd x
      simp only [List.length_append]
      calc (spawnRedHotspotFromBeat cfg g sd x).redHotspots.length
          ≤ x.redHotspots.length + 1 := this
        _ ≤ 3 := by omega
    · exact hx
    · exact hx
  have hgreds :
      (if Int.tmod cb cfg.greenEveryBeats = 0 ∧ cb ≠ s.lastBeatTime then
        (if s.greenHotspot = none ∨ s.greenActive = false then
          spawnGreenHotspotFromBeat cfg g cb s
         else s)
       else s).redHotspots = s.redHotspots := by
    split_ifs <;> rfl
  exact key _ (hgreds ▸ h)

theorem updateHotspotsFromBeats_reds_le (cfg : HSConfig) (g : GridManager)
    (t bpm spb : ℚ) (s : HotspotState) (h : s.redHotspots.length ≤ 3) :
    (updateHotspotsFromBeats cfg g t bpm spb s).redHotspots.length ≤ 3 := by
  unfold updateHotspotsFromBeats
  split_ifs with hguard
  · exact h
  · exact updateHotspotsCore_reds_le cfg g _ _ s h

/-- C7: in every reachable Hotspot Engine state there are at most 3 danger
hotspots: qualifying subdivisions spawn a danger hotspot only when fewer
than 3 exist, so the count never exceeds 3, however many qualifying
subdivisions fall inside the 10-second expiry window. -/
theorem redHotspots_at_most_three (cfg : HSConfig) (g : GridManager) (s : HotspotState)
    (h : HotspotReach cfg g s) : s.redHotspots.length ≤ 3 := by
  induction h with
  | init => simp [initialHotspotState]
  | update s t bpm spb _ ih => exact updateHotspotsFromBeats_reds_le cfg g t bpm spb s ih
  | greenArmed s _ ih =>
    unfold armGreen
    split_ifs <;> exact ih
  | redArmed s i _ ih =>
    unfold armRed
    cases hr : s.redHotspots.get? i with
    | none => exact ih
    | some r => simpa using ih
  | redExpired s i _ ih =>
    unfold expireRed
    exact le_trans (List.length_eraseIdx_le s.redHotspots i) ih
  | greenChecked s lane col _ ih =>
    unfold checkGreenHotspot
    cases hg : s.greenHotspot with
    | none => exact ih
    | some gh =>
      dsimp only
      split_ifs <;> exact ih

/-- Concrete hotspot configuration: green every 4 beats, red on every
2nd-subdivision offbeats, seeds (1, 0). -/
def hsConfig0 : HSConfig :=
  { greenEveryBeats := 4, redEverySubdiv := 2, seedA := 1, seedB := 0 }

/-- Concrete 3x3 grid. -/
def grid0 : GridManager := mkGridManager 300 300 {}

theorem redHotspots_at_most_three_witness :
    (updateHotspotsFromBeats hsConfig0 grid0 (1/2) 120 1 initialHotspotState).redHotspots.length ≤ 3 :=
  redHotspots_at_most_three hsConfig0 grid0 _
    (HotspotReach.update initialHotspotState (1/2) 120 1 HotspotReach.init)

/-- Evaluation of one frame update at bpm 120, secondsPerBeat 1, given the
two floors. -/
theorem updateFromBeats_eval (t : ℚ) (cb sd : ℤ) (hcb : ⌊t / 1⌋ = cb)
    (hsd : ⌊t / 1 * ((2 : ℤ) : ℚ)⌋ = sd) (s : HotspotState) :
    updateHotspotsFromBeats hsConfig0 grid0 t 120 1 s =
      updateHotspotsCore hsConfig0 grid0 cb sd s := by
  unfold updateHotspotsFromBeats
  rw [if_neg (by norm_num)]
  have hr : hsConfig0.redEverySubdiv = 2 := rfl
  dsimp only
  rw [hr, hcb, hsd]

/-- The state reached by frames at track times 1/2, 9/2 and 36 (beats 0,
4, 36; subdivisions 1, 9), then the red and green arming callbacks: the
beat-36 green spawn hits the red cell (0,0), retries at cell (0,1) which
is also red, and is placed there anyway. -/
def badHotspotState : HotspotState :=
  armGreen (armRed 0 (updateHotspotsCore hsConfig0 grid0 36 72
    (updateHotspotsCore hsConfig0 grid0 4 9
      (updateHotspotsCore hsConfig0 grid0 0 1 initialHotspotState))))

/-- C3 counterexample: a reachable Hotspot Engine state in which the armed
safe (green) hotspot and an armed danger (red) hotspot occupy the same
cell (0,1): the single-retry fallback for a colliding safe-hotspot spawn
can itself collide, and the safe hotspot is left on the shared cell. -/
theorem hotspot_overlap_reachable :
    HotspotReach hsConfig0 grid0 badHotspotState ∧
    badHotspotState.greenActive = true ∧
    badHotspotState.greenHotspot = some { row := 0, col := 1 } ∧
    badHotspotState.redHotspots.any
      (fun h => h.active && h.row == (0 : ℤ) && h.col == (1 : ℤ)) = true := by
  refine ⟨?_, by decide, by decide, by decide⟩
  have r1 := @HotspotReach.update hsConfig0 grid0
    initialHotspotState (1/2) 120 1 HotspotReach.init
  rw [updateFromBeats_eval (1/2) 0 1 (by norm_num) (by norm_num)] at r1
  have r2 := HotspotReach.update _ (9/2) 120 1 r1
  rw [updateFromBeats_eval (9/2) 4 9 (by norm_num) (by norm_num)] at r2
  have r3 := HotspotReach.update _ 36 120 1 r2
  rw [updateFromBeats_eval 36 36 72 (by norm_num) (by norm_num)] at r3
  exact HotspotReach.greenArmed _ (HotspotReach.redArmed _ 0 r3)

/-- Cell a beat index hashes to. -/
def cellOf (cfg : HSConfig) (g : GridManager) (b : ℤ) : Cell :=
  { row := (g.getCellFromBeatIndex b cfg.seedA cfg.seedB).1,
    col := (g.getCellFromBeatIndex b cfg.seedA cfg.seedB).2 }

/-- Does any danger hotspot occupy cell `c`. -/
def redAt (s : HotspotState) (c : Cell) : Bool :=
  s.redHotspots.any (fun h => h.row == c.row && h.col == c.col)

/-- C3 amended: a safe-hotspot spawn lands on its danger-free primary cell
when that cell is free; when the primary cell hosts a danger hotspot it is
placed on the single-retry cell `cellOf (b+1)` (whether or not that cell
is danger-free — the overlap of `hotspot_overlap_reachable` is exactly the
case where both cells host danger hotspots); and a danger-hotspot spawn
never lands on the cell of the safe hotspot. -/
theorem hotspot_no_overlap_amended (cfg : HSConfig) (g : GridManager)
    (s : HotspotState) (b : ℤ) :
    (redAt s (cellOf cfg g b) = false →
      (spawnGreenHotspotFromBeat cfg g b s).greenHotspot = some (cellOf cfg g b)) ∧
    (redAt s (cellOf cfg g b) = true →
      (spawnGreenHotspotFromBeat cfg g b s).greenHotspot = some (cellOf cfg g (b + 1))) ∧
    (∀ gh : Cell, s.greenHotspot = some gh → redAt s gh = false →
      redAt (spawnRedHotspotFromBeat cfg g b s) gh = false) := by
  refine ⟨?_, ?_, ?_⟩
  · intro h
    unfold spawnGreenHotspotFromBeat
    dsimp only
    rw [show (s.redHotspots.any fun hh =>
        hh.row == (g.getCellFromBeatIndex b cfg.seedA cfg.seedB).1 &&
        hh.col == (g.getCellFromBeatIndex b cfg.seedA cfg.seedB).2) = false from h]
    rfl
  · intro h
    unfold spawnGreenHotspotFromBeat
    dsimp only
    rw [show (s.redHotspots.any fun hh =>
        hh.row == (g.getCellFromBeatIndex b cfg.seedA cfg.seedB).1 &&
        hh.col == (g.getCellFromBeatIndex b cfg.seedA cfg.seedB).2) = true from h]
    rfl
  · intro gh hgh hred
    unfold spawnRedHotspotFromBeat
    dsimp only
    split_ifs with h1 h2 h3
    · exact hred
    · exact hred
    · exact hred
    · rw [hgh] at h2
      simp only [beq_iff_eq, Bool.and_eq_true, not_and] at h2
      unfold redAt at hred ⊢
      simp only [List.any_append, List.any_cons, List.any_nil, Bool.or_false,
        Bool.or_eq_false_iff]
      refine ⟨hred, ?_⟩
      simp only [beq_iff_eq, Bool.and_eq_false_iff]
      by_cases hrow : gh.row = (g.getCellFromBeatIndex b cfg.seedA cfg.seedB).1
      · right
        exact beq_eq_false_iff_ne.mpr (fun hh => h2 hrow hh.symm)
      · left
        exact beq_eq_false_iff_ne.mpr (fun hh => hrow hh.symm)

theorem hotspot_no_overlap_amended_witness :
    (spawnGreenHotspotFromBeat hsConfig0 grid0 0 initialHotspotState).greenHotspot =
      some (cellOf hsConfig0 grid0 0) ∧
    redAt (spawnRedHotspotFromBeat hsConfig0 grid0 1
      { greenHotspot := some { row := 0, col := 0 }, greenActive := false,
        redHotspots := [], lastBeatTime := 0, lastSubdivTime := 1 })
      { row := 0, col := 0 } = false :=
  ⟨(hotspot_no_overlap_amended hsConfig0 grid0 initialHotspotState 0).1 (by decide),
   (hotspot_no_overlap_amended hsConfig0 grid0 _ 1).2.2 { row := 0, col := 0 } rfl (by decide)⟩

/-! ## Run start re-entrancy (`startGame` lines 239-241 and body,
source `src/unnamed/part_005`) -/

/-- Orchestrator state relevant to run starts. `startedCount` and
`resetCount` are ghost instrumentation (not source fields) counting
completed Starting-to-Running transitions and state resets. -/
structure StartState where
  isStarting : Bool
  isRunning : Bool
  isDead : Bool
  greenScore : ℕ
  hazardCount : ℕ
  hotspots : HotspotState
  trackNextIndex : ℕ
  songCompleted : Bool
  trackStartMs : Option ℚ
  startedCount : ℕ
  resetCount : ℕ
  deriving Repr, DecidableEq

/-- Source lines 240-241 of `startGame()`: the synchronous re-entrancy
guard. A call arriving while `isStarting` is set returns immediately
(`false` = ignored); otherwise the flag is set and the body proceeds. All
suspension points of the body lie after this guard, so any overlapping
call observes `isStarting = true`. -/
def startGameEnter (s : StartState) : StartState × Bool :=
  if s.isStarting then (s, false)
  else ({ s with isStarting := true }, true)

/-- Source lines 243-326 of `startGame()` as executed by the single call
that passed the guard: resets score, player, hazards, hotspots, spawn
cursor and completion flag, captures the track start base, enters Running,
and clears the flag in the `finally` block. The ghost counters record one
transition and one reset. -/
def startGameBody (audioStart : Option ℚ) (toneAvailable : Bool)
    (toneNow perfNow : ℚ) (s : StartState) : StartState :=
  { s with
    isRunning := true
    isDead := false
    greenScore := 0
    hazardCount := 0
    hotspots := initialHotspotState
    trackNextIndex := 0
    songCompleted := false
    trackStartMs := some (computeTrackStartMs audioStart toneAvailable toneNow perfNow)
    isStarting := false
    startedCount := s.startedCount + 1
    resetCount := s.resetCount + 1 }

/-- C9: from a non-starting state, the first start call passes the guard
and sets the flag; any further start call made while that call is in
flight is silently ignored without changing the state; and completing the
single admitted body performs exactly one Starting-to-Running transition
and one reset of score, hazards, hotspots and spawn cursor. -/
theorem startGame_reentrancy (s : StartState) (hs : s.isStarting = false)
    (audioStart : Option ℚ) (toneAvailable : Bool) (toneNow perfNow : ℚ) :
    (startGameEnter s).2 = true ∧
    (startGameEnter (startGameEnter s).1 = ((startGameEnter s).1, false)) ∧
    ((startGameBody audioStart toneAvailable toneNow perfNow (startGameEnter s).1).isRunning = true ∧
     (startGameBody audioStart toneAvailable toneNow perfNow (startGameEnter s).1).isStarting = false ∧
     (startGameBody audioStart toneAvailable toneNow perfNow (startGameEnter s).1).startedCount =
       s.startedCount + 1 ∧
     (startGameBody audioStart toneAvailable toneNow perfNow (startGameEnter s).1).resetCount =
       s.resetCount + 1 ∧
     (startGameBody audioStart toneAvailable toneNow perfNow (startGameEnter s).1).greenScore = 0 ∧
     (startGameBody audioStart toneAvailable toneNow perfNow (startGameEnter s).1).hazardCount = 0 ∧
     (startGameBody audioStart toneAvailable toneNow perfNow (startGameEnter s).1).hotspots =
       initialHotspotState ∧
     (startGameBody audioStart toneAvailable toneNow perfNow (startGameEnter s).1).trackNextIndex = 0) := by
  have henter : startGameEnter s = ({ s with isStarting := true }, true) := by
    unfold startGameEnter
    rw [if_neg (by simp [hs])]
  rw [henter]
  refine ⟨rfl, ?_, rfl, rfl, rfl, rfl, rfl, rfl, rfl, rfl⟩
  unfold startGameEnter
  rw [if_pos rfl]

/-- Concrete idle state for the C9 witness. -/
def idleStart : StartState :=
  { isStarting := false, isRunning := false, isDead := false, greenScore := 5,
    hazardCount := 2, hotspots := initialHotspotState, trackNextIndex := 9,
    songCompleted := false, trackStartMs := none, startedCount := 0, resetCount := 0 }

theorem startGame_reentrancy_witness :
    (startGameEnter idleStart).2 = true ∧
    (startGameEnter (startGameEnter idleStart).1 = ((startGameEnter idleStart).1, false)) ∧
    ((startGameBody none false 0 50 (startGameEnter idleStart).1).isRunning = true ∧
     (startGameBody none false 0 50 (startGameEnter idleStart).1).isStarting = false ∧
     (startGameBody none false 0 50 (startGameEnter idleStart).1).startedCount =
       idleStart.startedCount + 1 ∧
     (startGameBody none false 0 50 (startGameEnter idleStart).1).resetCount =
       idleStart.resetCount + 1 ∧
     (startGameBody none false 0 50 (startGameEnter idleStart).1).greenScore = 0 ∧
     (startGameBody none false 0 50 (startGameEnter idleStart).1).hazardCount = 0 ∧
     (startGameBody none false 0 50 (startGameEnter idleStart).1).hotspots =
       initialHotspotState ∧
     (startGameBody none false 0 50 (startGameEnter idleStart).1).trackNextIndex = 0) :=
  startGame_reentrancy idleStart rfl none false 0 50

end GameTest
